import Mathlib

/-!
Verification of the mentorship matchmaking and communication pipeline of the
campuslink repository (src/services/database.js, embedded from
src/unnamed/part_002 and the code excerpts in src/unnamed/part_000).

Modelling conventions:
* JS strings are lists of characters (`Str`); character classes follow the
  ASCII semantics of the regexes used by the source.
* Document ids and user ids are natural numbers; ids are assigned in
  increasing order, so the store's id-ordered enumeration (Firestore's
  default for queries without `orderBy`) coincides with list order.
* `serverTimestamp()` is an explicit `now : Nat` parameter of each operation.
* `Math.round(100 * m / w)` is modeled by exact rational rounding,
  `(200 * m + w) / (2 * w)` in natural-number arithmetic.
* The moderation collaborator (`moderateContent` in gemini.js, not part of
  the embedded core) is an explicit `ModResult` input: it reports safe,
  reports a violation, or fails (throws).
-/

namespace CampusLink

/-- JS strings, modeled as lists of characters. -/
abbrev Str := List Char

/-- ASCII model of `String.prototype.toLowerCase` (per character). -/
def jsToLower (c : Char) : Char :=
  if 65 ≤ c.toNat ∧ c.toNat ≤ 90 then Char.ofNat (c.toNat + 32) else c

/-- ASCII model of the JS regex class `\s` (whitespace). -/
def jsWs (c : Char) : Bool :=
  c.toNat == 32 || c.toNat == 9 || c.toNat == 10 || c.toNat == 13 ||
    c.toNat == 11 || c.toNat == 12

def jsLower (s : Str) : Str := s.map jsToLower

/-- JS `String.prototype.trim`: drop whitespace from both ends. -/
def jsTrim (s : Str) : Str :=
  ((s.dropWhile jsWs).reverse.dropWhile jsWs).reverse

/-- Characters kept by the regex replace `[^a-z0-9\s] -> ''`. -/
def isLowerAlnum (c : Char) : Bool :=
  (97 ≤ c.toNat && c.toNat ≤ 122) || (48 ≤ c.toNat && c.toNat ≤ 57)

def keepChar (c : Char) : Bool := isLowerAlnum c || jsWs c

/-- `normalizeSkill` (src/unnamed/part_002, lines 808-810):
`skill.toLowerCase().trim().replace(/[^a-z0-9\s]/g, '')`. -/
def normalizeSkill (s : Str) : Str := (jsTrim (jsLower s)).filter keepChar

/-- JS `a.includes(b)`: `b` occurs as a contiguous substring of `a`. -/
def strIncludes (s sub : Str) : Bool :=
  (List.range (s.length + 1)).any fun i => sub.isPrefixOf (s.drop i)

/-- Helper for `splitWs`: `cur` is the (reversed) token being read, `inRun`
records whether the previous character was whitespace (so that a maximal run
splits only once). JS `split(/\s+/)` keeps empty edge tokens. -/
def splitWsAux (cur : Str) (inRun : Bool) : Str → List Str
  | [] => [cur.reverse]
  | c :: rest =>
    if jsWs c then
      if inRun then splitWsAux [] true rest
      else cur.reverse :: splitWsAux [] true rest
    else splitWsAux (c :: cur) false rest

/-- JS `str.split(/\s+/)`: split on maximal whitespace runs. -/
def splitWs (s : Str) : List Str := splitWsAux [] false s

/-- `skillsMatch` (src/unnamed/part_002, lines 815-830): exact match of the
normalized strings, or one contains the other, or any token of one equals,
contains or is contained in any token of the other. -/
def skillsMatch (skill1 skill2 : Str) : Bool :=
  let norm1 := normalizeSkill skill1
  let norm2 := normalizeSkill skill2
  if norm1 == norm2 then true
  else if strIncludes norm1 norm2 || strIncludes norm2 norm1 then true
  else (splitWs norm1).any fun w1 => (splitWs norm2).any fun w2 =>
    w1 == w2 || strIncludes w1 w2 || strIncludes w2 w1

/-- The matching loop of `calculateLocalMatchScore` (lines 843-851): for each
wanted skill, scan `has` in order and record the first matching entry only. -/
def collectMatches : List Str → List Str → List Str
  | [], _ => []
  | w :: rest, has =>
    match has.find? (fun h => skillsMatch w h) with
    | some h => h :: collectMatches rest has
    | none => collectMatches rest has

/-- `[...new Set(arr)]`: deduplicate keeping first occurrences. -/
def dedupFirstAux (seen : List Str) : List Str → List Str
  | [] => []
  | x :: xs => if x ∈ seen then dedupFirstAux seen xs else x :: dedupFirstAux (x :: seen) xs

def dedupFirst (l : List Str) : List Str := dedupFirstAux [] l

/-- `calculateLocalMatchScore` (src/unnamed/part_002, lines 835-860).
`Math.round((matchCount / learnerWants.length) * 100)` is modeled as exact
rational rounding `(200 * m + w) / (2 * w)` over naturals. -/
def calculateLocalMatchScore (learnerWants mentorHas : List Str) : Nat × List Str :=
  if learnerWants.isEmpty || mentorHas.isEmpty then (0, [])
  else
    let matched := collectMatches learnerWants mentorHas
    ((200 * matched.length + learnerWants.length) / (2 * learnerWants.length),
      dedupFirst matched)

/-! ## Data model (§3): the document store collections used by the pipeline -/

inductive ReqStatus
  | pending
  | accepted
  | rejected
deriving DecidableEq, Repr

structure MentorRequest where
  id : Nat
  senderId : Nat
  receiverId : Nat
  message : Str
  status : ReqStatus
  createdAt : Nat
  respondedAt : Option Nat
deriving DecidableEq, Repr

structure ChatRoom where
  id : Nat
  participants : List Nat
  userIds : List Nat
  createdAt : Nat
  lastMessageAt : Nat
deriving DecidableEq, Repr

structure Message where
  id : Nat
  chatRoomId : Nat
  senderId : Nat
  text : Str
  createdAt : Nat
deriving DecidableEq, Repr

/-- The copied subset of message fields stored inside a `ChatReport`. -/
structure ReportMessage where
  senderId : Nat
  text : Str
  createdAt : Nat
deriving DecidableEq, Repr

inductive ReportStatus
  | pending
  | reviewed
  | actionTaken
deriving DecidableEq, Repr

structure ChatReport where
  id : Nat
  chatRoomId : Nat
  reporterId : Nat
  reason : Str
  participants : List Nat
  messages : List ReportMessage
  messageCount : Nat
  status : ReportStatus
  createdAt : Nat
deriving DecidableEq, Repr

structure Profile where
  userId : Nat
  skillsHave : Option (List Str)
  skillsOffered : Option (List Str)
  skillsToLearn : Option (List Str)
  skillsWanted : Option (List Str)
deriving DecidableEq, Repr

/-- The document store: one list per collection.  List order models the
store's id-ordered enumeration for queries without `orderBy` (ids are
assigned in increasing order here, so append keeps that order). -/
structure DbState where
  mentorRequests : List MentorRequest
  chatRooms : List ChatRoom
  messages : List Message
  chatReports : List ChatReport
deriving DecidableEq, Repr

/-- Outcome of one call to the moderation collaborator
(`moderateContent` in gemini.js): a safe verdict, a violation verdict
(`{safe: false, reason}`), or a thrown error (service failure). -/
inductive ModResult
  | safe
  | flagged (reason : Str)
  | svcDown (reason : Str)
deriving DecidableEq, Repr

/-- Error kinds thrown by the embedded operations (§7). -/
inductive DbError
  | contentRejected (reason : Str)
  | duplicateRequest
  | notFound
  | validationError
  | storeError
  | moderationError (reason : Str)
deriving DecidableEq, Repr

/-! ## Operations -/

/-- Requests stored for the exact ordered pair `(senderId, receiverId)`,
in store enumeration order (the query at lines 982-986 has no `orderBy`). -/
def requestsFor (st : DbState) (fromUserId toUserId : Nat) : List MentorRequest :=
  st.mentorRequests.filter fun r => r.senderId == fromUserId && r.receiverId == toUserId

/-- `sendMentorRequest` (src/unnamed/part_002, lines 973-1011).
If a message is present it is moderated first and both a violation verdict
and a moderation-service failure abort the call (no catch here).  The
duplicate check inspects only `existingDocs.docs[0]`, the first stored
request for the ordered pair. -/
def sendMentorRequest (fromUserId toUserId : Nat) (message : Str) (mod : ModResult)
    (newId now : Nat) (st : DbState) : Except DbError (DbState × MentorRequest) :=
  let modCheck : Except DbError Unit :=
    if message.isEmpty then .ok ()
    else
      match mod with
      | .safe => .ok ()
      | .flagged r => .error (.contentRejected r)
      | .svcDown r => .error (.moderationError r)
  match modCheck with
  | .error e => .error e
  | .ok _ =>
    let dupe : Bool :=
      match requestsFor st fromUserId toUserId with
      | existing :: _ => existing.status == .pending || existing.status == .accepted
      | [] => false
    if dupe then .error .duplicateRequest
    else
      let req : MentorRequest :=
        { id := newId, senderId := fromUserId, receiverId := toUserId,
          message := message, status := .pending, createdAt := now, respondedAt := none }
      .ok ({ st with mentorRequests := st.mentorRequests ++ [req] }, req)

/-- `respondToMentorRequest` (src/unnamed/part_002, lines 1013-1038).
Reads the request, unconditionally overwrites `status` and `respondedAt`
(there is no guard on the current status), and when accepting appends a chat
room built from the pre-update snapshot of the request. -/
def respondToMentorRequest (requestId : Nat) (accept : Bool) (newChannelId now : Nat)
    (st : DbState) : Except DbError DbState :=
  match st.mentorRequests.find? (fun r => r.id == requestId) with
  | none => .error .notFound
  | some req =>
    let st1 :=
      { st with
        mentorRequests := st.mentorRequests.map fun r =>
          if r.id == requestId then
            { r with status := if accept then .accepted else .rejected,
                     respondedAt := some now }
          else r }
    if accept then
      .ok { st1 with
            chatRooms := st1.chatRooms ++
              [{ id := newChannelId,
                 participants := [req.senderId, req.receiverId],
                 userIds := [req.senderId, req.receiverId],
                 createdAt := now, lastMessageAt := now }] }
    else .ok st1

/-- `sendMessage` (src/unnamed/part_002, lines 1140-1174).  The whole
moderation step — including the `throw` raised on a violation verdict — sits
inside one `try` whose `catch` only logs a warning, so every moderation
outcome falls through to the append.  The embedding keeps the `mod` argument
to make that visible: it is never consulted.  The message is appended, then
the chat room's `lastMessageAt` is updated (`updateDoc` fails on a missing
room; the model does not track the partially-appended message in that error
case, which no claim here depends on). -/
def sendMessage (chatRoomId senderId : Nat) (text : Str) (mod : ModResult)
    (newMsgId now : Nat) (st : DbState) : Except DbError DbState :=
  let _ := mod
  let msg : Message :=
    { id := newMsgId, chatRoomId := chatRoomId, senderId := senderId,
      text := text, createdAt := now }
  let st1 := { st with messages := st.messages ++ [msg] }
  if st1.chatRooms.any (fun c => c.id == chatRoomId) then
    .ok { st1 with
          chatRooms := st1.chatRooms.map fun c =>
            if c.id == chatRoomId then { c with lastMessageAt := now } else c }
  else .error .storeError

/-- Ascending order on `createdAt` for stored messages. -/
abbrev msgLe (a b : Message) : Prop := a.createdAt ≤ b.createdAt

/-- Ascending order on `createdAt` for report snapshot entries. -/
abbrev repLe (a b : ReportMessage) : Prop := a.createdAt ≤ b.createdAt

/-- `getMessages` (src/unnamed/part_002, lines 1200-1209): the full ordered
message list of a channel, ascending by `createdAt` (ties by arrival order,
modeled by a stable sort). -/
def getMessages (chatRoomId : Nat) (st : DbState) : List Message :=
  List.insertionSort msgLe (st.messages.filter fun m => m.chatRoomId == chatRoomId)

/-- The copied fields of one captured message. -/
def projectMsg (m : Message) : ReportMessage :=
  { senderId := m.senderId, text := m.text, createdAt := m.createdAt }

/-- Modelled from the spec: the body of `reportChat` (src/services/database.js)
is not present under src/ — only the code excerpts in src/unnamed/part_000
(lines 55-87) and its caller in ChatScreen.jsx are.  Following §4.5 and those
excerpts: validate the reason, load the channel's participants, load the
channel's current messages (query without `orderBy`), copy only `senderId`,
`text`, `createdAt`, sort ascending by `createdAt` locally, and persist a new
pending `ChatReport` holding the snapshot. -/
def reportChat (chatRoomId reporterId : Nat) (reason : Str) (newId now : Nat)
    (st : DbState) : Except DbError DbState :=
  if reason.isEmpty then .error .validationError
  else
    match st.chatRooms.find? (fun c => c.id == chatRoomId) with
    | none => .error .notFound
    | some room =>
      let msgs := List.insertionSort repLe
        ((st.messages.filter fun m => m.chatRoomId == chatRoomId).map projectMsg)
      .ok { st with
            chatReports := st.chatReports ++
              [{ id := newId, chatRoomId := chatRoomId, reporterId := reporterId,
                 reason := reason, participants := room.participants,
                 messages := msgs, messageCount := msgs.length,
                 status := .pending, createdAt := now }] }

/-! ## Mentor search (src/unnamed/part_002, lines 882-967) -/

/-- One scored candidate of `searchMentors`; `idx` is its enumeration
position in the candidate pool. -/
structure ScoredMentor where
  idx : Nat
  userId : Nat
  matchScore : Nat
  matchedSkills : List Str
deriving DecidableEq, Repr

/-- The JS sort comparator of lines 949-956, read as a `≤`-relation:
`mentorCmpLe a b` holds when the comparator does not order `b` strictly
before `a` (descending score, ties by descending matched-skill count). -/
abbrev mentorCmpLe (a b : ScoredMentor) : Prop :=
  b.matchScore < a.matchScore ∨
    (a.matchScore = b.matchScore ∧ b.matchedSkills.length ≤ a.matchedSkills.length)

/-- The ranking pipeline of lines 946-957: drop zero scores, stable-sort by
the comparator (JS `Array.prototype.sort` is stable), truncate to 20. -/
def rankMentors (l : List ScoredMentor) : List ScoredMentor :=
  (List.insertionSort mentorCmpLe (l.filter fun m => decide (0 < m.matchScore))).take 20

/-- The JS truthiness chain `searchSkills || skillsToLearn || skillsWanted || []`
(an empty array is truthy, so only a missing value falls through). -/
def resolveSkills (searchSkills : Option (List Str)) (p : Profile) : List Str :=
  ((searchSkills.orElse fun _ => p.skillsToLearn).orElse fun _ => p.skillsWanted).getD []

/-- JS `searchQuery.split(/[,;]/)`: split at every comma or semicolon. -/
def splitDelims : Str → List Str
  | [] => [[]]
  | c :: rest =>
    match splitDelims rest with
    | t :: ts => if c == ',' || c == ';' then [] :: t :: ts else (c :: t) :: ts
    | [] => [[c]]

/-- Lines 897-900: split the query, trim each part, drop empties. -/
def parseQuery (q : Str) : List Str :=
  ((splitDelims q).map jsTrim).filter fun s => decide (0 < s.length)

/-- `searchMentors` body before the surrounding catch-all (lines 883-962).
The two store reads are explicit fallible inputs: `profileRes` is the
`getProfile` result, `docsRes` the `profiles` collection read. -/
def searchMentorsBody (currentUserId : Nat) (searchQuery : Str)
    (searchSkills : Option (List Str)) (profileRes : Except DbError (Option Profile))
    (docsRes : Except DbError (List Profile)) : Except DbError (List ScoredMentor) := do
  let currentProfile ← profileRes
  match currentProfile with
  | none => return []
  | some p =>
    let skills0 := resolveSkills searchSkills p
    let skillsToMatch :=
      if !(jsTrim searchQuery).isEmpty then
        if !(parseQuery searchQuery).isEmpty then parseQuery searchQuery else skills0
      else skills0
    if skillsToMatch.isEmpty then return []
    let profiles ← docsRes
    let filtered := profiles.filter fun q =>
      q.userId != currentUserId &&
        (match q.skillsHave with | some l => !l.isEmpty | none => false)
    if filtered.isEmpty then return []
    let scored := filtered.enum.map fun pr =>
      let mentorSkills := ((pr.2.skillsHave.orElse fun _ => pr.2.skillsOffered).getD [])
      let r := calculateLocalMatchScore skillsToMatch mentorSkills
      ScoredMentor.mk pr.1 pr.2.userId r.1 r.2
    return rankMentors scored

/-- `searchMentors` (lines 882-967): the body runs inside a `try` whose
`catch` returns the empty list (lines 963-966). -/
def searchMentors (currentUserId : Nat) (searchQuery : Str)
    (searchSkills : Option (List Str)) (profileRes : Except DbError (Option Profile))
    (docsRes : Except DbError (List Profile)) : Except DbError (List ScoredMentor) :=
  match searchMentorsBody currentUserId searchQuery searchSkills profileRes docsRes with
  | .ok l => .ok l
  | .error _ => .ok []

example : normalizeSkill ['P', 'y', '!'] = ['p', 'y'] := by decide
example : normalizeSkill ['a', ' ', '.'] = ['a', ' '] := by decide
example : normalizeSkill (normalizeSkill ['a', ' ', '.']) = ['a'] := by decide
example : skillsMatch ['a', 'b'] ['a', 'b', 'c'] = true := by decide
example : skillsMatch ['q'] ['a'] = false := by decide
example : calculateLocalMatchScore [['a'], ['z']] [['a', 'b']] = (50, [['a', 'b']]) := by decide

/-! ## SkillMatcher lemmas -/

lemma mem_of_mem_jsTrim {c : Char} {s : Str} (h : c ∈ jsTrim s) : c ∈ s := by
  unfold jsTrim at h
  rw [List.mem_reverse] at h
  have h1 := (List.dropWhile_sublist (l := (s.dropWhile jsWs).reverse) (p := jsWs)).subset h
  rw [List.mem_reverse] at h1
  exact (List.dropWhile_sublist (l := s) (p := jsWs)).subset h1

lemma keepChar_of_mem_normalize {c : Char} {s : Str} (h : c ∈ normalizeSkill s) :
    keepChar c = true :=
  List.of_mem_filter h

lemma jsToLower_of_keepChar {c : Char} (h : keepChar c = true) : jsToLower c = c := by
  simp only [keepChar, isLowerAlnum, jsWs, Bool.or_eq_true, Bool.and_eq_true,
    decide_eq_true_eq, Nat.beq_eq_true_eq] at h
  unfold jsToLower
  rw [if_neg]
  omega

lemma jsLower_eq_self {s : Str} (h : ∀ c ∈ s, keepChar c = true) : jsLower s = s := by
  induction s with
  | nil => rfl
  | cons a t ih =>
    have ha := jsToLower_of_keepChar (h a (by simp))
    have ht := ih fun c hc => h c (by simp [hc])
    simp only [jsLower, List.map_cons] at ht ⊢
    rw [ha, ht]

/-- Claim C6 (counterexample): `normalizeSkill` is not idempotent.  On the
input `"a ."` the first pass strips the dot and leaves a trailing space that
`trim` had no chance to remove, so a second pass shrinks the string again. -/
theorem normalizeSkill_not_idempotent :
    normalizeSkill (normalizeSkill ['a', ' ', '.']) ≠ normalizeSkill ['a', ' ', '.'] := by
  decide

/-- Claim C6 (amended): applying `normalizeSkill` twice is the same as
trimming the once-normalized string; the second pass only removes the edge
whitespace that stripping re-exposed after the trim of the first pass. -/
theorem normalizeSkill_twice_eq_trim (s : Str) :
    normalizeSkill (normalizeSkill s) = jsTrim (normalizeSkill s) := by
  have hkeep : ∀ c ∈ normalizeSkill s, keepChar c = true := fun c hc =>
    keepChar_of_mem_normalize hc
  have hkeep2 : ∀ c ∈ jsTrim (normalizeSkill s), keepChar c = true := fun c hc =>
    hkeep c (mem_of_mem_jsTrim hc)
  calc normalizeSkill (normalizeSkill s)
      = (jsTrim (jsLower (normalizeSkill s))).filter keepChar := rfl
    _ = (jsTrim (normalizeSkill s)).filter keepChar := by rw [jsLower_eq_self hkeep]
    _ = jsTrim (normalizeSkill s) := List.filter_eq_self.mpr hkeep2

lemma bool_eq_of_iff {a b : Bool} (h : a = true ↔ b = true) : a = b := by
  cases a <;> cases b <;> simp_all

lemma any_any_comm {α β : Type} (l1 : List α) (l2 : List β) (p : α → β → Bool) :
    (l1.any fun x => l2.any fun y => p x y) = (l2.any fun y => l1.any fun x => p x y) := by
  apply bool_eq_of_iff
  simp only [List.any_eq_true]
  constructor
  · rintro ⟨x, hx, y, hy, hp⟩
    exact ⟨y, hy, x, hx, hp⟩
  · rintro ⟨y, hy, x, hx, hp⟩
    exact ⟨x, hx, y, hy, hp⟩

lemma skillsMatchNorm_symm (n1 n2 : Str) :
    ((if n1 == n2 then true
      else if strIncludes n1 n2 || strIncludes n2 n1 then true
      else (splitWs n1).any fun w1 => (splitWs n2).any fun w2 =>
        w1 == w2 || strIncludes w1 w2 || strIncludes w2 w1) : Bool)
  = ((if n2 == n1 then true
      else if strIncludes n2 n1 || strIncludes n1 n2 then true
      else (splitWs n2).any fun w2 => (splitWs n1).any fun w1 =>
        w2 == w1 || strIncludes w2 w1 || strIncludes w1 w2) : Bool) := by
  by_cases h : n1 = n2
  · subst h
    simp
  · have h1 : (n1 == n2) = false := beq_eq_false_iff_ne.mpr h
    have h2 : (n2 == n1) = false := beq_eq_false_iff_ne.mpr (Ne.symm h)
    simp only [h1, h2, Bool.false_eq_true, if_false]
    by_cases hinc : (strIncludes n1 n2 || strIncludes n2 n1) = true
    · have hinc2 : (strIncludes n2 n1 || strIncludes n1 n2) = true := by
        rw [Bool.or_comm] at hinc
        exact hinc
      simp [hinc, hinc2]
    · have hinc2 : (strIncludes n2 n1 || strIncludes n1 n2) = false := by
        rw [Bool.or_comm]
        exact Bool.not_eq_true _ ▸ eq_false_of_ne_true hinc
      rw [eq_false_of_ne_true hinc, hinc2]
      simp only [Bool.false_eq_true, if_false]
      rw [any_any_comm]
      apply bool_eq_of_iff
      simp only [List.any_eq_true, Bool.or_eq_true, beq_iff_eq]
      constructor
      · rintro ⟨w2, hw2, w1, hw1, (heq | hi) | hi⟩
        · exact ⟨w2, hw2, w1, hw1, Or.inl (Or.inl heq.symm)⟩
        · exact ⟨w2, hw2, w1, hw1, Or.inr hi⟩
        · exact ⟨w2, hw2, w1, hw1, Or.inl (Or.inr hi)⟩
      · rintro ⟨w2, hw2, w1, hw1, (heq | hi) | hi⟩
        · exact ⟨w2, hw2, w1, hw1, Or.inl (Or.inl heq.symm)⟩
        · exact ⟨w2, hw2, w1, hw1, Or.inr hi⟩
        · exact ⟨w2, hw2, w1, hw1, Or.inl (Or.inr hi)⟩

/-- Claim C9: `skillsMatch` is symmetric — every one of its three stages
(exact equality of the normalized strings, mutual containment, pairwise
token comparison) is invariant under swapping the two inputs. -/
theorem skillsMatch_symm (a b : Str) : skillsMatch a b = skillsMatch b a := by
  unfold skillsMatch
  exact skillsMatchNorm_symm (normalizeSkill a) (normalizeSkill b)

/-! ## Score lemmas -/

lemma collectMatches_length_le (wanted has : List Str) :
    (collectMatches wanted has).length ≤ wanted.length := by
  induction wanted with
  | nil => simp [collectMatches]
  | cons w rest ih =>
    unfold collectMatches
    cases has.find? fun h => skillsMatch w h with
    | none =>
      simp only [List.length_cons]
      omega
    | some h =>
      simp only [List.length_cons]
      omega

lemma dedupFirst_eq_nil_iff (l : List Str) : dedupFirst l = [] ↔ l = [] := by
  cases l with
  | nil => simp [dedupFirst, dedupFirstAux]
  | cons x xs => simp [dedupFirst, dedupFirstAux]

set_option maxRecDepth 20000 in
/-- Claim C7 (counterexample): with 201 wanted skills of which exactly one is
matched, `Math.round(100 * 1 / 201) = 0` while `matchedSkills` is nonempty —
the biconditional `score == 0 ⟺ matchedSkills empty` fails. -/
theorem calculateLocalMatchScore_zero_nonempty :
    (calculateLocalMatchScore (['a'] :: List.replicate 200 ['q']) [['a']]).1 = 0 ∧
      (calculateLocalMatchScore (['a'] :: List.replicate 200 ['q']) [['a']]).2 ≠ [] := by
  decide

/-- Claim C7 (amended): the score is an integer in `[0, 100]` (it is a `Nat`
here, so the lower bound is by type); empty `matchedSkills` forces score 0;
empty `wanted` or `has` yields `(0, {})`; and the biconditional
`score == 0 ⟺ matchedSkills empty` holds whenever `wanted` has at most 200
entries (rounding can send a positive match ratio to 0 only beyond that). -/
theorem calculateLocalMatchScore_spec (wanted has : List Str) :
    (calculateLocalMatchScore wanted has).1 ≤ 100
  ∧ ((calculateLocalMatchScore wanted has).2 = [] →
      (calculateLocalMatchScore wanted has).1 = 0)
  ∧ (wanted = [] ∨ has = [] → calculateLocalMatchScore wanted has = (0, []))
  ∧ (wanted.length ≤ 200 →
      ((calculateLocalMatchScore wanted has).1 = 0 ↔
        (calculateLocalMatchScore wanted has).2 = [])) := by
  by_cases hempty : (wanted.isEmpty || has.isEmpty) = true
  · have hres : calculateLocalMatchScore wanted has = (0, []) := by
      simp [calculateLocalMatchScore, hempty]
    rw [hres]
    exact ⟨by decide, fun _ => rfl, fun _ => rfl, fun _ => by decide⟩
  · have hw : wanted ≠ [] := by
      simp only [Bool.or_eq_true, List.isEmpty_iff] at hempty
      tauto
    have hh : has ≠ [] := by
      simp only [Bool.or_eq_true, List.isEmpty_iff] at hempty
      tauto
    have hwlen : 1 ≤ wanted.length := by
      cases wanted with
      | nil => exact absurd rfl hw
      | cons a t => simp
    simp only [calculateLocalMatchScore, hempty, Bool.false_eq_true, if_false]
    have hm := collectMatches_length_le wanted has
    set m := (collectMatches wanted has).length with hmdef
    set w := wanted.length with hwdef
    constructor
    · -- score ≤ 100
      have h2w : 0 < 2 * w := by omega
      have : (200 * m + w) / (2 * w) < 101 := by
        rw [Nat.div_lt_iff_lt_mul h2w]
        omega
      omega
    constructor
    · -- dedup empty → score = 0
      intro hnil
      have : collectMatches wanted has = [] := (dedupFirst_eq_nil_iff _).mp hnil
      have hm0 : m = 0 := by rw [hmdef, this]; rfl
      simp only [hm0]
      have : (200 * 0 + w) / (2 * w) = 0 := Nat.div_eq_of_lt (by omega)
      omega
    constructor
    · -- empty inputs are handled by the other branch
      intro hcase
      exact absurd hcase (by tauto)
    · -- the biconditional under the 200 bound
      intro hbound
      have h2w : 0 < 2 * w := by omega
      constructor
      · intro hz
        have : 200 * m + w < 2 * w := by
          by_contra hge
          have := Nat.div_le_div_right (c := 2 * w) (Nat.le_of_not_lt hge)
          rw [Nat.div_self h2w] at this
          omega
        have hm0 : m = 0 := by omega
        rw [(dedupFirst_eq_nil_iff _), ← List.length_eq_zero]
        exact hm0
      · intro hnil
        have : collectMatches wanted has = [] := (dedupFirst_eq_nil_iff _).mp hnil
        have hm0 : m = 0 := by rw [hmdef, this]; rfl
        simp only [hm0]
        have : (200 * 0 + w) / (2 * w) = 0 := Nat.div_eq_of_lt (by omega)
        omega

/-- Claim C7 (witness): at `wanted = ["a"]`, `has = ["b"]` (no match, one
wanted skill) the amended biconditional applies and both sides hold. -/
theorem calculateLocalMatchScore_spec_witness :
    (calculateLocalMatchScore [['a']] [['b']]).1 = 0 ↔
      (calculateLocalMatchScore [['a']] [['b']]).2 = [] :=
  (calculateLocalMatchScore_spec [['a']] [['b']]).2.2.2 (by decide)

/-! ## Request lifecycle and channel lemmas -/

lemma find?_map_update (l : List MentorRequest) (rid : Nat) (stNew : ReqStatus) (now : Nat) :
    ((l.map fun r =>
        if r.id == rid then { r with status := stNew, respondedAt := some now } else r).find?
      fun r => r.id == rid)
    = (l.find? fun r => r.id == rid).map
        fun r => { r with status := stNew, respondedAt := some now } := by
  induction l with
  | nil => rfl
  | cons a t ih =>
    have hid : ({ a with status := stNew, respondedAt := some now } : MentorRequest).id
        = a.id := rfl
    by_cases h : (a.id == rid) = true
    · simp only [List.map_cons, List.find?_cons, h, if_true, hid, Option.map_some']
    · have hf : (a.id == rid) = false := eq_false_of_ne_true h
      simp only [List.map_cons, List.find?_cons, hf, Bool.false_eq_true, if_false, hid]
      exact ih

/-- Concrete states used by witnesses and counterexamples. -/
def reqA : MentorRequest :=
  { id := 1, senderId := 10, receiverId := 20, message := [], status := .pending,
    createdAt := 0, respondedAt := none }

def stPending : DbState := ⟨[reqA], [], [], []⟩

def reqAcc : MentorRequest :=
  { id := 1, senderId := 10, receiverId := 20, message := [], status := .accepted,
    createdAt := 0, respondedAt := some 1 }

def roomAB : ChatRoom := ⟨2, [10, 20], [10, 20], 1, 1⟩

def stAccepted : DbState := ⟨[reqAcc], [roomAB], [], []⟩

/-- Claim C3: responding to a pending request with `accept = true` marks it
accepted, stamps `respondedAt`, and appends exactly one channel whose
participant set is `{sender, receiver}` with `lastMessageAt` initialized to
the acceptance time; `accept = false` marks it rejected and appends no
channel; a nonexistent request id fails with `NotFoundError`. -/
theorem respondToMentorRequest_spec (st : DbState) (rid cid now : Nat)
    (req : MentorRequest)
    (hfind : st.mentorRequests.find? (fun r => r.id == rid) = some req)
    (_hpending : req.status = .pending) :
    (∃ st', respondToMentorRequest rid true cid now st = .ok st'
      ∧ ((st'.mentorRequests.find? fun r => r.id == rid).map fun r => r.status)
          = some .accepted
      ∧ ((st'.mentorRequests.find? fun r => r.id == rid).map fun r => r.respondedAt)
          = some (some now)
      ∧ st'.chatRooms = st.chatRooms ++
          [{ id := cid, participants := [req.senderId, req.receiverId],
             userIds := [req.senderId, req.receiverId], createdAt := now,
             lastMessageAt := now }]
      ∧ (∀ x, x ∈ [req.senderId, req.receiverId] ↔ x = req.senderId ∨ x = req.receiverId))
  ∧ (∃ st', respondToMentorRequest rid false cid now st = .ok st'
      ∧ ((st'.mentorRequests.find? fun r => r.id == rid).map fun r => r.status)
          = some .rejected
      ∧ ((st'.mentorRequests.find? fun r => r.id == rid).map fun r => r.respondedAt)
          = some (some now)
      ∧ st'.chatRooms = st.chatRooms)
  ∧ (∀ rid2 acc, st.mentorRequests.find? (fun r => r.id == rid2) = none →
      respondToMentorRequest rid2 acc cid now st = .error .notFound) := by
  have haccept : respondToMentorRequest rid true cid now st = .ok
      { mentorRequests := st.mentorRequests.map fun r =>
          if r.id == rid then { r with status := ReqStatus.accepted, respondedAt := some now }
          else r,
        chatRooms := st.chatRooms ++
          [{ id := cid, participants := [req.senderId, req.receiverId],
             userIds := [req.senderId, req.receiverId], createdAt := now,
             lastMessageAt := now }],
        messages := st.messages,
        chatReports := st.chatReports } := by
    unfold respondToMentorRequest
    rw [hfind]
    rfl
  have hreject : respondToMentorRequest rid false cid now st = .ok
      { mentorRequests := st.mentorRequests.map fun r =>
          if r.id == rid then { r with status := ReqStatus.rejected, respondedAt := some now }
          else r,
        chatRooms := st.chatRooms,
        messages := st.messages,
        chatReports := st.chatReports } := by
    unfold respondToMentorRequest
    rw [hfind]
    rfl
  refine ⟨⟨_, haccept, ?_, ?_, rfl, ?_⟩, ⟨_, hreject, ?_, ?_, rfl⟩, ?_⟩
  · show ((((st.mentorRequests.map fun r =>
        if r.id == rid then { r with status := ReqStatus.accepted, respondedAt := some now }
        else r)).find? fun r => r.id == rid).map fun r => r.status) = some .accepted
    rw [find?_map_update, hfind]
    rfl
  · show ((((st.mentorRequests.map fun r =>
        if r.id == rid then { r with status := ReqStatus.accepted, respondedAt := some now }
        else r)).find? fun r => r.id == rid).map fun r => r.respondedAt) = some (some now)
    rw [find?_map_update, hfind]
    rfl
  · intro x
    simp
  · show ((((st.mentorRequests.map fun r =>
        if r.id == rid then { r with status := ReqStatus.rejected, respondedAt := some now }
        else r)).find? fun r => r.id == rid).map fun r => r.status) = some .rejected
    rw [find?_map_update, hfind]
    rfl
  · show ((((st.mentorRequests.map fun r =>
        if r.id == rid then { r with status := ReqStatus.rejected, respondedAt := some now }
        else r)).find? fun r => r.id == rid).map fun r => r.respondedAt) = some (some now)
    rw [find?_map_update, hfind]
    rfl
  · intro rid2 acc hnone
    unfold respondToMentorRequest
    rw [hnone]

/-- Claim C3 (witness): the accept branch at a concrete one-request state. -/
theorem respondToMentorRequest_spec_witness :
    ∃ st', respondToMentorRequest 1 true 7 5 stPending = .ok st'
      ∧ ((st'.mentorRequests.find? fun r => r.id == 1).map fun r => r.status)
          = some .accepted
      ∧ ((st'.mentorRequests.find? fun r => r.id == 1).map fun r => r.respondedAt)
          = some (some 5)
      ∧ st'.chatRooms = stPending.chatRooms ++
          [{ id := 7, participants := [reqA.senderId, reqA.receiverId],
             userIds := [reqA.senderId, reqA.receiverId], createdAt := 5,
             lastMessageAt := 5 }]
      ∧ (∀ x, x ∈ [reqA.senderId, reqA.receiverId] ↔ x = reqA.senderId ∨ x = reqA.receiverId) :=
  (respondToMentorRequest_spec stPending 1 7 5 reqA rfl rfl).1

/-- Claim C2 (counterexample): from a state whose only request is already
accepted (channel already provisioned), a later respond(false) call moves the
status out of the terminal state to rejected, and a later respond(true) call
creates a second channel. -/
theorem respond_terminal_not_guarded :
    (∃ st', respondToMentorRequest 1 false 3 9 stAccepted = .ok st'
      ∧ ((st'.mentorRequests.find? fun r => r.id == 1).map fun r => r.status)
          = some .rejected)
  ∧ (∃ st', respondToMentorRequest 1 true 3 9 stAccepted = .ok st'
      ∧ st'.chatRooms.length = 2) := by
  refine ⟨⟨_, rfl, ?_⟩, ⟨_, rfl, ?_⟩⟩ <;> decide

/-- Claim C2 (amended): `respondToMentorRequest` has no terminal-state guard:
a respond call on any existing request — whatever its current status —
overwrites the status with accepted or rejected per the `accept` flag, and an
accepting call always appends one more channel; only a nonexistent request id
fails. -/
theorem respondToMentorRequest_no_guard (st : DbState) (rid cid now : Nat)
    (acc : Bool) (req : MentorRequest)
    (hfind : st.mentorRequests.find? (fun r => r.id == rid) = some req) :
    ∃ st', respondToMentorRequest rid acc cid now st = .ok st'
      ∧ ((st'.mentorRequests.find? fun r => r.id == rid).map fun r => r.status)
          = some (if acc then .accepted else .rejected)
      ∧ st'.chatRooms.length = st.chatRooms.length + (if acc then 1 else 0) := by
  cases acc with
  | true =>
    have hstep : respondToMentorRequest rid true cid now st = .ok
        { mentorRequests := st.mentorRequests.map fun r =>
            if r.id == rid then { r with status := ReqStatus.accepted, respondedAt := some now }
            else r,
          chatRooms := st.chatRooms ++
            [{ id := cid, participants := [req.senderId, req.receiverId],
               userIds := [req.senderId, req.receiverId], createdAt := now,
               lastMessageAt := now }],
          messages := st.messages,
          chatReports := st.chatReports } := by
      unfold respondToMentorRequest
      rw [hfind]
      rfl
    refine ⟨_, hstep, ?_, ?_⟩
    · show ((((st.mentorRequests.map fun r =>
          if r.id == rid then { r with status := ReqStatus.accepted, respondedAt := some now }
          else r)).find? fun r => r.id == rid).map fun r => r.status)
        = some (if true then .accepted else .rejected)
      rw [find?_map_update, hfind]
      rfl
    · show (st.chatRooms ++
          [({ id := cid, participants := [req.senderId, req.receiverId],
              userIds := [req.senderId, req.receiverId], createdAt := now,
              lastMessageAt := now } : ChatRoom)]).length
          = st.chatRooms.length + (if true then 1 else 0)
      simp
  | false =>
    have hstep : respondToMentorRequest rid false cid now st = .ok
        { mentorRequests := st.mentorRequests.map fun r =>
            if r.id == rid then { r with status := ReqStatus.rejected, respondedAt := some now }
            else r,
          chatRooms := st.chatRooms,
          messages := st.messages,
          chatReports := st.chatReports } := by
      unfold respondToMentorRequest
      rw [hfind]
      rfl
    refine ⟨_, hstep, ?_, ?_⟩
    · show ((((st.mentorRequests.map fun r =>
          if r.id == rid then { r with status := ReqStatus.rejected, respondedAt := some now }
          else r)).find? fun r => r.id == rid).map fun r => r.status)
        = some (if false then .accepted else .rejected)
      rw [find?_map_update, hfind]
      rfl
    · show st.chatRooms.length = st.chatRooms.length + (if false then 1 else 0)
      simp

/-- Claim C2 (witness): applying the amended theorem to the already-accepted
request yields the second channel. -/
theorem respondToMentorRequest_no_guard_witness :
    ∃ st', respondToMentorRequest 1 true 3 9 stAccepted = .ok st'
      ∧ ((st'.mentorRequests.find? fun r => r.id == 1).map fun r => r.status)
          = some (if true then .accepted else .rejected)
      ∧ st'.chatRooms.length = stAccepted.chatRooms.length + (if true then 1 else 0) :=
  respondToMentorRequest_no_guard stAccepted 1 3 9 true reqAcc rfl

/-- Channel with two participants and no messages, for the C1 evidence. -/
def stRoomOnly : DbState := ⟨[], [⟨1, [10, 20], [10, 20], 0, 0⟩], [], []⟩

/-- Claim C1 (code-bug evidence): when the moderation collaborator returns a
violation verdict, `sendMessage` still succeeds and appends the message —
the `throw` raised on the verdict lives inside the same `try` whose `catch`
swallows it and proceeds.  The claimed `ContentRejected` failure never
happens and the message is persisted. -/
theorem sendMessage_flagged_appends :
    ∃ st', sendMessage 1 10 ['s', 'p', 'a', 'm'] (.flagged ['b', 'a', 'd']) 5 3 stRoomOnly
        = .ok st'
      ∧ st'.messages.length = 1
      ∧ ∀ m ∈ st'.messages, m.text = ['s', 'p', 'a', 'm'] := by
  refine ⟨_, rfl, ?_, ?_⟩ <;> decide

/-! ## Duplicate-request check (C4) -/

/-- The request inspected by the duplicate check: `existingDocs.docs[0]`,
the first stored request for the exact ordered pair. -/
def firstRequestFor (st : DbState) (fromUserId toUserId : Nat) : Option MentorRequest :=
  (requestsFor st fromUserId toUserId).head?

/-- Claim C4 (counterexample): a reachable trace — create (10,20), reject it,
create (10,20) again — leaves the store with a rejected request stored before
a pending one for the same ordered pair.  A third create then succeeds even
though a pending request for the exact ordered pair exists, because only the
first stored request is inspected. -/
theorem sendMentorRequest_dedup_counterexample :
    sendMentorRequest 10 20 [] .safe 1 0 ⟨[], [], [], []⟩
      = .ok (⟨[⟨1, 10, 20, [], .pending, 0, none⟩], [], [], []⟩,
             ⟨1, 10, 20, [], .pending, 0, none⟩)
  ∧ respondToMentorRequest 1 false 99 1 ⟨[⟨1, 10, 20, [], .pending, 0, none⟩], [], [], []⟩
      = .ok ⟨[⟨1, 10, 20, [], .rejected, 0, some 1⟩], [], [], []⟩
  ∧ sendMentorRequest 10 20 [] .safe 2 2 ⟨[⟨1, 10, 20, [], .rejected, 0, some 1⟩], [], [], []⟩
      = .ok (⟨[⟨1, 10, 20, [], .rejected, 0, some 1⟩, ⟨2, 10, 20, [], .pending, 2, none⟩],
              [], [], []⟩,
             ⟨2, 10, 20, [], .pending, 2, none⟩)
  ∧ (∃ r ∈ (⟨[⟨1, 10, 20, [], .rejected, 0, some 1⟩, ⟨2, 10, 20, [], .pending, 2, none⟩],
              [], [], []⟩ : DbState).mentorRequests,
        r.senderId = 10 ∧ r.receiverId = 20 ∧ r.status = .pending)
  ∧ (∃ res, sendMentorRequest 10 20 [] .safe 3 3
        ⟨[⟨1, 10, 20, [], .rejected, 0, some 1⟩, ⟨2, 10, 20, [], .pending, 2, none⟩],
          [], [], []⟩ = .ok res) := by
  refine ⟨rfl, rfl, rfl, ?_, ⟨_, rfl⟩⟩
  decide

/-- Claim C4 (amended): the duplicate check inspects only the first stored
request for the exact ordered pair `(senderId, receiverId)`: `create` fails
with `DuplicateRequestError` when that first request is pending or accepted,
and succeeds otherwise — even when a pending request for the same pair exists
further down the store; a create for the reverse-ordered pair is never
blocked by `(senderId, receiverId)` requests. -/
theorem sendMentorRequest_dedup_spec (st : DbState) (A B nid now : Nat) :
    (∀ r, firstRequestFor st A B = some r →
      r.status = .pending ∨ r.status = .accepted →
      sendMentorRequest A B [] .safe nid now st = .error .duplicateRequest)
  ∧ (∀ r, firstRequestFor st A B = some r → r.status = .rejected →
      ∃ st2 req, sendMentorRequest A B [] .safe nid now st = .ok (st2, req)
        ∧ st2.mentorRequests = st.mentorRequests ++ [req]
        ∧ req.senderId = A ∧ req.receiverId = B ∧ req.status = .pending)
  ∧ (firstRequestFor st A B = none →
      ∃ st2 req, sendMentorRequest A B [] .safe nid now st = .ok (st2, req)
        ∧ st2.mentorRequests = st.mentorRequests ++ [req]
        ∧ req.senderId = A ∧ req.receiverId = B ∧ req.status = .pending)
  ∧ (requestsFor st B A = [] →
      ∃ st2 req, sendMentorRequest B A [] .safe nid now st = .ok (st2, req)
        ∧ st2.mentorRequests = st.mentorRequests ++ [req]
        ∧ req.senderId = B ∧ req.receiverId = A ∧ req.status = .pending) := by
  refine ⟨?_, ?_, ?_, ?_⟩
  · intro r hr hstat
    unfold firstRequestFor at hr
    unfold sendMentorRequest
    cases hreq : requestsFor st A B with
    | nil =>
      rw [hreq] at hr
      exact absurd hr (by simp)
    | cons e t =>
      rw [hreq] at hr
      simp only [List.head?_cons, Option.some.injEq] at hr
      obtain rfl : e = r := hr
      have hdupe : (e.status == ReqStatus.pending || e.status == ReqStatus.accepted) = true := by
        rcases hstat with h | h <;> simp [h]
      simp only [List.isEmpty_nil, if_true, hreq, hdupe]
  · intro r hr hstat
    unfold firstRequestFor at hr
    unfold sendMentorRequest
    cases hreq : requestsFor st A B with
    | nil =>
      rw [hreq] at hr
      exact absurd hr (by simp)
    | cons e t =>
      rw [hreq] at hr
      simp only [List.head?_cons, Option.some.injEq] at hr
      obtain rfl : e = r := hr
      have hdupe : (e.status == ReqStatus.pending || e.status == ReqStatus.accepted) = false := by
        simp [hstat]
      simp only [List.isEmpty_nil, if_true, hreq, hdupe, Bool.false_eq_true, if_false]
      exact ⟨_, _, rfl, rfl, rfl, rfl, rfl⟩
  · intro hnone
    unfold firstRequestFor at hnone
    unfold sendMentorRequest
    cases hreq : requestsFor st A B with
    | cons e t =>
      rw [hreq] at hnone
      exact absurd hnone (by simp)
    | nil =>
      simp only [List.isEmpty_nil, if_true, hreq]
      exact ⟨_, _, rfl, rfl, rfl, rfl, rfl⟩
  · intro hnone
    unfold sendMentorRequest
    simp only [List.isEmpty_nil, if_true, hnone]
    exact ⟨_, _, rfl, rfl, rfl, rfl, rfl⟩

/-- Claim C4 (witness): with one pending (10,20) request stored first, a
second (10,20) create fails with the duplicate error while a (20,10) create
succeeds. -/
theorem sendMentorRequest_dedup_spec_witness :
    sendMentorRequest 10 20 [] .safe 7 9 stPending = .error .duplicateRequest
  ∧ ∃ st2 req, sendMentorRequest 20 10 [] .safe 7 9 stPending = .ok (st2, req)
      ∧ st2.mentorRequests = stPending.mentorRequests ++ [req]
      ∧ req.senderId = 20 ∧ req.receiverId = 10 ∧ req.status = .pending :=
  ⟨(sendMentorRequest_dedup_spec stPending 10 20 7 9).1 reqA rfl (Or.inl rfl),
   (sendMentorRequest_dedup_spec stPending 10 20 7 9).2.2.2 rfl⟩

/-! ## Report capture (C5) -/

instance : IsTotal ReportMessage repLe := ⟨fun a b => Nat.le_total a.createdAt b.createdAt⟩

instance : IsTrans ReportMessage repLe := ⟨fun _ _ _ => Nat.le_trans⟩

lemma sendMessage_effects (cid sender : Nat) (text : Str) (mod : ModResult)
    (mid t : Nat) (st st2 : DbState)
    (h : sendMessage cid sender text mod mid t st = .ok st2) :
    st2.chatReports = st.chatReports
  ∧ st2.messages = st.messages ++
      [{ id := mid, chatRoomId := cid, senderId := sender, text := text, createdAt := t }] := by
  unfold sendMessage at h
  dsimp only at h
  split at h
  · cases h
    exact ⟨rfl, rfl⟩
  · exact absurd h (by simp)

/-- Claim C5: a captured report appends exactly one record whose `messages`
are the projections (`senderId`, `text`, `createdAt`) of the channel's
messages existing at capture time, sorted ascending by `createdAt`; and any
later `send` on the channel leaves the stored reports untouched while
`getMessages` (the `list` operation) grows by the new message. -/
theorem reportChat_snapshot_frozen (st st' : DbState) (cid reporterId : Nat)
    (reason : Str) (rid now : Nat)
    (hok : reportChat cid reporterId reason rid now st = .ok st') :
    (∃ rep, st'.chatReports = st.chatReports ++ [rep]
      ∧ rep.status = .pending
      ∧ List.Perm rep.messages
          ((st.messages.filter fun m => m.chatRoomId == cid).map projectMsg)
      ∧ rep.messages.Pairwise repLe)
  ∧ (∀ sender text mod mid t st2,
      sendMessage cid sender text mod mid t st' = .ok st2 →
      st2.chatReports = st'.chatReports
      ∧ (getMessages cid st2).length = (getMessages cid st').length + 1) := by
  unfold reportChat at hok
  split at hok
  · exact absurd hok (by simp)
  · cases hfind : st.chatRooms.find? (fun c => c.id == cid) with
    | none =>
      rw [hfind] at hok
      exact absurd hok (by simp)
    | some room =>
      rw [hfind] at hok
      injection hok with hok2
      subst hok2
      constructor
      · exact ⟨_, rfl, rfl, List.perm_insertionSort repLe _,
          List.sorted_insertionSort repLe _⟩
      · intro sender text mod mid t st2 hsend
        have heff := sendMessage_effects cid sender text mod mid t _ st2 hsend
        refine ⟨heff.1, ?_⟩
        unfold getMessages
        rw [heff.2, List.filter_append]
        have hone : List.filter (fun m : Message => m.chatRoomId == cid)
            ([{ id := mid, chatRoomId := cid, senderId := sender, text := text,
                createdAt := t }] : List Message) =
            ([{ id := mid, chatRoomId := cid, senderId := sender, text := text,
                createdAt := t }] : List Message) := by simp
        rw [hone, List.length_insertionSort, List.length_insertionSort,
          List.length_append]
        simp [List.length_insertionSort]

/-- Concrete channel with two messages, for the C5 witness. -/
def stChatW : DbState :=
  ⟨[], [⟨1, [10, 20], [10, 20], 0, 0⟩],
    [⟨100, 1, 10, ['h', 'i'], 1⟩, ⟨101, 1, 20, ['y', 'o'], 2⟩], []⟩

/-- Result of capturing a report on `stChatW`. -/
def stChatW2 : DbState :=
  { stChatW with
    chatReports :=
      [⟨5, 1, 10, ['b', 'a', 'd'], [10, 20],
        [⟨10, ['h', 'i'], 1⟩, ⟨20, ['y', 'o'], 2⟩], 2, .pending, 3⟩] }

/-- Claim C5 (witness): the capture at the two-message channel stores exactly
the two projected messages in ascending order. -/
theorem reportChat_snapshot_frozen_witness :
    ∃ rep, stChatW2.chatReports = stChatW.chatReports ++ [rep]
      ∧ rep.status = .pending
      ∧ List.Perm rep.messages
          ((stChatW.messages.filter fun m => m.chatRoomId == 1).map projectMsg)
      ∧ rep.messages.Pairwise repLe :=
  (reportChat_snapshot_frozen stChatW stChatW2 1 10 ['b', 'a', 'd'] 5 3 rfl).1

/-! ## Ranking (C8): the stable sort of the candidate pool -/

/-- The strict order that pins down the output of the stable JS sort on an
index-tagged pool: higher score first, ties by more matched skills, residual
ties by enumeration position. -/
def mentorBefore (a b : ScoredMentor) : Prop :=
  b.matchScore < a.matchScore
  ∨ (a.matchScore = b.matchScore ∧ b.matchedSkills.length < a.matchedSkills.length)
  ∨ (a.matchScore = b.matchScore ∧ a.matchedSkills.length = b.matchedSkills.length
      ∧ a.idx < b.idx)

lemma mentorBefore_trans {a b c : ScoredMentor}
    (h1 : mentorBefore a b) (h2 : mentorBefore b c) : mentorBefore a c := by
  unfold mentorBefore at *
  omega

lemma mentorBefore_of_not_cmpLe {a b : ScoredMentor} (h : ¬ mentorCmpLe a b) :
    mentorBefore b a := by
  unfold mentorCmpLe at h
  unfold mentorBefore
  omega

lemma mentorBefore_of_cmpLe_idx {a b : ScoredMentor} (h : mentorCmpLe a b)
    (hidx : a.idx < b.idx) : mentorBefore a b := by
  unfold mentorCmpLe at h
  unfold mentorBefore
  omega

lemma orderedInsert_pairwise_before (a : ScoredMentor) :
    ∀ xs : List ScoredMentor, xs.Pairwise mentorBefore →
      (∀ x ∈ xs, a.idx < x.idx) →
      (xs.orderedInsert mentorCmpLe a).Pairwise mentorBefore := by
  intro xs
  induction xs with
  | nil =>
    intro _ _
    simp [List.orderedInsert]
  | cons b ys ih =>
    intro hp hidx
    rcases List.pairwise_cons.mp hp with ⟨hb, hys⟩
    simp only [List.orderedInsert]
    by_cases h : mentorCmpLe a b
    · rw [if_pos h]
      have hab : mentorBefore a b := mentorBefore_of_cmpLe_idx h (hidx b (by simp))
      refine List.pairwise_cons.mpr ⟨?_, hp⟩
      intro z hz
      rcases List.mem_cons.mp hz with rfl | hz2
      · exact hab
      · exact mentorBefore_trans hab (hb z hz2)
    · rw [if_neg h]
      refine List.pairwise_cons.mpr
        ⟨?_, ih hys fun x hx => hidx x (by simp [hx])⟩
      intro z hz
      rcases (List.mem_orderedInsert _).mp hz with rfl | hz2
      · exact mentorBefore_of_not_cmpLe h
      · exact hb z hz2

lemma insertionSort_pairwise_before :
    ∀ l : List ScoredMentor, l.Pairwise (fun x y => x.idx < y.idx) →
      (l.insertionSort mentorCmpLe).Pairwise mentorBefore := by
  intro l
  induction l with
  | nil =>
    intro _
    simp [List.insertionSort]
  | cons a t ih =>
    intro hp
    rcases List.pairwise_cons.mp hp with ⟨hat, ht⟩
    simp only [List.insertionSort]
    exact orderedInsert_pairwise_before a _ (ih ht)
      fun x hx => hat x ((List.mem_insertionSort _).mp hx)

/-- Claim C8: on any index-tagged candidate pool (enumeration indices
increasing), the ranking pipeline keeps exactly the candidates with positive
score, orders them by descending score, then descending matched-skill count,
then input enumeration order (the stable-sort tie rule), and returns the
first 20 of that order. -/
theorem searchMentors_ranking (l : List ScoredMentor)
    (hidx : l.Pairwise fun x y => x.idx < y.idx) :
    ∃ s, List.Perm (l.filter fun c => decide (0 < c.matchScore)) s
      ∧ s.Pairwise mentorBefore
      ∧ rankMentors l = s.take 20
      ∧ (rankMentors l).length ≤ 20
      ∧ ∀ m ∈ rankMentors l, 0 < m.matchScore := by
  refine ⟨List.insertionSort mentorCmpLe (l.filter fun c => decide (0 < c.matchScore)),
    (List.perm_insertionSort _ _).symm, ?_, rfl, ?_, ?_⟩
  · exact insertionSort_pairwise_before _ (hidx.filter _)
  · exact List.length_take_le _ _
  · intro m hm
    have hm1 : m ∈ List.insertionSort mentorCmpLe
        (l.filter fun c => decide (0 < c.matchScore)) :=
      List.take_subset _ _ hm
    have hm2 := (List.mem_insertionSort _).mp hm1
    simpa using (List.mem_filter.mp hm2).2

/-- Concrete candidate pool for the C8 witness: scores 50, 80 and 0. -/
def mentorsW : List ScoredMentor :=
  [⟨0, 30, 50, [['a']]⟩, ⟨1, 31, 80, []⟩, ⟨2, 32, 0, []⟩]

/-- Claim C8 (witness): the ranking specification at the concrete pool. -/
theorem searchMentors_ranking_witness :
    ∃ s, List.Perm (mentorsW.filter fun c => decide (0 < c.matchScore)) s
      ∧ s.Pairwise mentorBefore
      ∧ rankMentors mentorsW = s.take 20
      ∧ (rankMentors mentorsW).length ≤ 20
      ∧ ∀ m ∈ rankMentors mentorsW, 0 < m.matchScore :=
  searchMentors_ranking mentorsW (by decide)

/-! ## Search error policy (C10) -/

/-- Claim C10: `searchMentors` never surfaces an error: its catch-all turns
every failure into the empty list, a missing searcher profile returns the
empty list, and a failing profile read or profiles-collection read also
returns the empty list. -/
theorem searchMentors_never_throws (uid : Nat) (q : Str) (ss : Option (List Str))
    (pr : Except DbError (Option Profile)) (dr : Except DbError (List Profile)) :
    (∃ l, searchMentors uid q ss pr dr = .ok l)
  ∧ (∀ e, searchMentors uid q ss (.error e) dr = .ok [])
  ∧ (searchMentors uid q ss (.ok none) dr = .ok [])
  ∧ (∀ e, searchMentors uid q ss pr (.error e) = .ok []) := by
  refine ⟨?_, ?_, ?_, ?_⟩
  · unfold searchMentors
    cases h : searchMentorsBody uid q ss pr dr with
    | ok l => exact ⟨l, rfl⟩
    | error e => exact ⟨[], rfl⟩
  · intro e
    rfl
  · rfl
  · intro e
    cases pr with
    | error e2 => rfl
    | ok op =>
      cases op with
      | none => rfl
      | some p =>
        have hbody : searchMentorsBody uid q ss (.ok (some p)) (.error e) = .ok []
            ∨ searchMentorsBody uid q ss (.ok (some p)) (.error e) = .error e := by
          unfold searchMentorsBody
          dsimp only [bind, Except.bind, pure, Except.pure]
          repeat' split
          all_goals first
            | exact Or.inl rfl
            | exact Or.inr rfl
        unfold searchMentors
        rcases hbody with h | h <;> rw [h]

end CampusLink
